import Mathlib

/-!
Shallow embedding of the stock-labeling pipeline
(`label_maker.generate_labels`, `label_maker.generate_labels_vectorized`,
`preprocess.preprocess_data`) and proofs about it.

Modelling conventions:
* A dataframe row (one daily bar) is a `Bar`.  The `date` column is modelled as
  an integer ordinal of the (already parsed) calendar date; `pd.to_datetime` on
  an already-datetime column is the identity, so the date-conversion lines are
  identities in the model.
* Numeric cells are `Option ℚ`: `none` is pandas `NaN`, `some x` a real value.
  Machine floats are modelled as rationals.
* `pandas.Series.max()` / `.max(axis=1)` skip `NaN` and return `NaN` when every
  entry is `NaN`; this is `seriesMax` below (`seriesMin` for `.min(axis=1)`).
* `df.sort_values(by='date')` is modelled by `List.insertionSort` on the date
  field: on inputs without duplicate dates every comparison sort produces the
  same output, and the repository's preconditions exclude duplicate dates.
* In the labeling loop the only columns ever written are the two label columns,
  while the loop reads only `close` and `high`; the loop therefore flattens to
  an index-wise map (`generateLabels`).  The literal imperative loop with
  in-place writes is also embedded (`generateLabelsImp`) and proved equal.
-/

/-- One daily OHLCV bar: a row of the dataframe.  `«open»` is the `open`
column (the Lean keyword is quoted). -/
structure Bar where
  date : ℤ
  code : String
  «open» : Option ℚ
  high : Option ℚ
  low : Option ℚ
  close : Option ℚ
  volume : Option ℚ
  deriving DecidableEq, Repr

/-- A bar together with the two label columns added by the label maker. -/
structure LabeledBar extends Bar where
  buystrong_label : ℕ
  buy_label : ℕ
  deriving DecidableEq, Repr

/-- Date comparison used by `sort_values(by='date')`. -/
def dateLe (a b : Bar) : Prop := a.date ≤ b.date

instance : DecidableRel dateLe := fun a b => (inferInstance : Decidable (a.date ≤ b.date))

instance : IsTotal Bar dateLe := ⟨fun a b => le_total a.date b.date⟩

instance : IsTrans Bar dateLe := ⟨fun _ _ _ hab hbc => le_trans hab hbc⟩

/-- Model of `df.sort_values(by='date').reset_index(drop=True)`. -/
def sortByDate (df : List Bar) : List Bar := List.insertionSort dateLe df

/-- Pandas max of two cells, skipping `NaN`. -/
def omax : Option ℚ → Option ℚ → Option ℚ
  | none, y => y
  | some a, none => some a
  | some a, some b => some (max a b)

/-- Pandas min of two cells, skipping `NaN`. -/
def omin : Option ℚ → Option ℚ → Option ℚ
  | none, y => y
  | some a, none => some a
  | some a, some b => some (min a b)

/-- Model of `pandas.Series.max()`: maximum of the non-`NaN` entries, `NaN`
when there is none. -/
def seriesMax : List (Option ℚ) → Option ℚ
  | [] => none
  | x :: xs => omax x (seriesMax xs)

/-- Pandas row-wise `.min(axis=1)` over a list of cells. -/
def seriesMin : List (Option ℚ) → Option ℚ
  | [] => none
  | x :: xs => omin x (seriesMin xs)

/-- One lookahead block of `generate_labels` (`label_maker.py` lines 56-76),
for a row whose close `current_price` is already known valid:

    end_idx = min(idx + days + 1, len(df))
    if end_idx > idx + 1:
        future_highs = df.iloc[idx + 1:end_idx]['high']
        if len(future_highs) > 0:
            max_high = future_highs.max()
            if not pd.isna(max_high):
                price_change = (max_high - current_price) / current_price
                if price_change >= threshold:
                    label = 1

Returns the label value written for this row (0 when no branch fires). -/
def windowLabel (df : List Bar) (current_price : ℚ) (threshold : ℚ) (days : ℕ)
    (idx : ℕ) : ℕ :=
  let end_idx := min (idx + days + 1) df.length
  if idx + 1 < end_idx then
    let future_highs := ((df.drop (idx + 1)).take (end_idx - (idx + 1))).map Bar.high
    if 0 < future_highs.length then
      match seriesMax future_highs with
      | none => 0
      | some max_high =>
        if (max_high - current_price) / current_price ≥ threshold then 1 else 0
    else 0
  else 0

/-- The body of one iteration of the `generate_labels` loop, flattened to the
labeled row it produces for index `idx` (labels start at 0; a missing or
non-positive close skips both lookahead blocks). -/
def labelRow (df : List Bar) (strong_buy_threshold buy_threshold : ℚ)
    (strong_buy_days buy_days : ℕ) (idx : ℕ) (b : Bar) : LabeledBar :=
  match b.close with
  | none => { toBar := b, buystrong_label := 0, buy_label := 0 }
  | some current_price =>
    if current_price ≤ 0 then
      { toBar := b, buystrong_label := 0, buy_label := 0 }
    else
      { toBar := b
        buystrong_label := windowLabel df current_price strong_buy_threshold strong_buy_days idx
        buy_label := windowLabel df current_price buy_threshold buy_days idx }

/-- Model of `label_maker.generate_labels`: copy, sort by date, initialize the label
columns to 0, then label every row from its close and the following highs.
Python defaults: thresholds 0.25 and 0.18, windows 10 and 15. -/
def generateLabels (df : List Bar) (strong_buy_threshold buy_threshold : ℚ)
    (strong_buy_days buy_days : ℕ) : List LabeledBar :=
  let df := sortByDate df
  df.enum.map fun p =>
    labelRow df strong_buy_threshold buy_threshold strong_buy_days buy_days p.1 p.2

/-- The per-row body of `generate_labels_vectorized` (`label_maker.py` lines
115-142): both window ends are computed up front, then the two blocks run. -/
def labelRowVec (df : List Bar) (strong_buy_threshold buy_threshold : ℚ)
    (strong_buy_days buy_days : ℕ) (idx : ℕ) (b : Bar) : LabeledBar :=
  match b.close with
  | none => { toBar := b, buystrong_label := 0, buy_label := 0 }
  | some current_price =>
    if current_price ≤ 0 then
      { toBar := b, buystrong_label := 0, buy_label := 0 }
    else
      let end_idx_10 := min (idx + strong_buy_days + 1) df.length
      let end_idx_15 := min (idx + buy_days + 1) df.length
      let sl :=
        if idx + 1 < end_idx_10 then
          let future_highs_10 := ((df.drop (idx + 1)).take (end_idx_10 - (idx + 1))).map Bar.high
          if 0 < future_highs_10.length then
            match seriesMax future_highs_10 with
            | none => 0
            | some max_high_10 =>
              if (max_high_10 - current_price) / current_price ≥ strong_buy_threshold then 1 else 0
          else 0
        else 0
      let bl :=
        if idx + 1 < end_idx_15 then
          let future_highs_15 := ((df.drop (idx + 1)).take (end_idx_15 - (idx + 1))).map Bar.high
          if 0 < future_highs_15.length then
            match seriesMax future_highs_15 with
            | none => 0
            | some max_high_15 =>
              if (max_high_15 - current_price) / current_price ≥ buy_threshold then 1 else 0
          else 0
        else 0
      { toBar := b, buystrong_label := sl, buy_label := bl }

/-- Model of `label_maker.generate_labels_vectorized`. -/
def generateLabelsVectorized (df : List Bar) (strong_buy_threshold buy_threshold : ℚ)
    (strong_buy_days buy_days : ℕ) : List LabeledBar :=
  let df := sortByDate df
  df.enum.map fun p =>
    labelRowVec df strong_buy_threshold buy_threshold strong_buy_days buy_days p.1 p.2

/-- The future-window maximum named by the specification: the `pandas` max of
the highs of the `w` rows strictly after index `i` (clipped at the series
end), `none` when that range is empty or every high in it is missing. -/
def futureWindowMax (df : List Bar) (w i : ℕ) : Option ℚ :=
  seriesMax (((df.drop (i + 1)).take w).map Bar.high)

/-- In-place write `df.at[idx, 'buystrong_label'] = 1`. -/
def setStrongAt : List LabeledBar → ℕ → List LabeledBar
  | [], _ => []
  | r :: rest, 0 => { r with buystrong_label := 1 } :: rest
  | r :: rest, n + 1 => r :: setStrongAt rest n

/-- In-place write `df.at[idx, 'buy_label'] = 1`. -/
def setBuyAt : List LabeledBar → ℕ → List LabeledBar
  | [], _ => []
  | r :: rest, 0 => { r with buy_label := 1 } :: rest
  | r :: rest, n + 1 => r :: setBuyAt rest n

/-- One iteration of the imperative `generate_labels` loop, acting on the
working dataframe (labels possibly already written at earlier indices):
read the close at `idx`, skip on a missing or non-positive price, and run the
two lookahead blocks, each writing its label cell when its conditions fire. -/
def labelIteration (strong_buy_threshold buy_threshold : ℚ)
    (strong_buy_days buy_days : ℕ) (acc : List LabeledBar) (idx : ℕ) :
    List LabeledBar :=
  let bars := acc.map LabeledBar.toBar
  match bars[idx]? with
  | none => acc
  | some b =>
    match b.close with
    | none => acc
    | some current_price =>
      if current_price ≤ 0 then acc
      else
        let acc1 :=
          if windowLabel bars current_price strong_buy_threshold strong_buy_days idx = 1 then
            setStrongAt acc idx
          else acc
        let bars1 := acc1.map LabeledBar.toBar
        if windowLabel bars1 current_price buy_threshold buy_days idx = 1 then
          setBuyAt acc1 idx
        else acc1

/-- Model of `label_maker.generate_labels` with the caller's dataframe kept explicit:
`df = df.copy()` makes the working frame a fresh object, all subsequent
writes hit the copy, and the pair returned is (caller's frame after the call,
function result). -/
def generateLabelsImp (caller_df : List Bar) (strong_buy_threshold buy_threshold : ℚ)
    (strong_buy_days buy_days : ℕ) : List Bar × List LabeledBar :=
  let df := caller_df.map fun b => b
  let df := sortByDate df
  let working := df.map fun b => { toBar := b, buystrong_label := 0, buy_label := 0 }
  let final := (List.range working.length).foldl
    (labelIteration strong_buy_threshold buy_threshold strong_buy_days buy_days) working
  (caller_df, final)

/-- The `fill_method` argument of `preprocess_data`
(`'forward' | 'backward' | 'both' | 'none'`). -/
inductive FillMethod
  | forward
  | backward
  | both
  | nofill
  deriving DecidableEq, Repr

/-- Last seen valid value of each numeric column during a forward fill. -/
structure FillCarry where
  o : Option ℚ
  h : Option ℚ
  l : Option ℚ
  c : Option ℚ
  v : Option ℚ
  deriving Repr

/-- Keep a present cell, otherwise take the carried value (`Series.ffill`
step). -/
def ofill : Option ℚ → Option ℚ → Option ℚ
  | some x, _ => some x
  | none, y => y

/-- Forward fill `df[col].ffill()` applied to all five numeric columns at once (the columns
are filled independently, so one row-wise pass with a per-column carry is the
same as five column-wise passes). -/
def ffillBars (carry : FillCarry) : List Bar → List Bar
  | [] => []
  | b :: rest =>
    let bf : Bar :=
      { b with
        «open» := ofill b.«open» carry.o
        high := ofill b.high carry.h
        low := ofill b.low carry.l
        close := ofill b.close carry.c
        volume := ofill b.volume carry.v }
    bf :: ffillBars ⟨bf.«open», bf.high, bf.low, bf.close, bf.volume⟩ rest

/-- Backward fill `df[col].bfill()`: fill each missing cell from the next valid one below,
i.e. a forward fill of the reversed frame. -/
def bfillBars (df : List Bar) : List Bar :=
  (ffillBars ⟨none, none, none, none, none⟩ df.reverse).reverse

/-- Model of `drop_duplicates(subset=['date'], keep='first')`: keep the first row of
each date, tracking the dates already seen. -/
def dedupByDate (seen : List ℤ) : List Bar → List Bar
  | [] => []
  | b :: rest =>
    if b.date ∈ seen then dedupByDate seen rest
    else b :: dedupByDate (b.date :: seen) rest

/-- The OHLC consistency clamp of `preprocess_data` (`preprocess.py` lines
65-69): the `high` column is set to the row max of `{high, open, close, low}`
first, then the `low` column is set to the row min of the same four columns —
of which `high` has already been updated. -/
def clampBar (b : Bar) : Bar :=
  let high' := seriesMax [b.high, b.«open», b.close, b.low]
  let low' := seriesMin [high', b.«open», b.close, b.low]
  { b with high := high', low := low' }

/-- Model of `volume.clip(lower=0)`: `NaN` stays `NaN`, negatives become 0. -/
def vclip : Option ℚ → Option ℚ
  | none => none
  | some v => some (max v 0)

/-- Everything `preprocess_data` does before the OHLC clamp: sort, drop
duplicate dates, coerce to numeric (the identity in this model) and gap-fill.
-/
def normalizeStage (df : List Bar) (fill_method : FillMethod)
    (drop_duplicates sort_by_date : Bool) : List Bar :=
  let df := if sort_by_date then sortByDate df else df
  let df := if drop_duplicates then dedupByDate [] df else df
  let df :=
    match fill_method with
    | .forward | .both => ffillBars ⟨none, none, none, none, none⟩ df
    | _ => df
  match fill_method with
  | .backward | .both => bfillBars df
  | _ => df

/-- Model of `preprocess.preprocess_data`: normalize, clamp OHLC, clip volume. -/
def preprocessData (df : List Bar) (fill_method : FillMethod)
    (drop_duplicates sort_by_date : Bool) : List Bar :=
  let df := normalizeStage df fill_method drop_duplicates sort_by_date
  let df := df.map clampBar
  df.map fun b => { b with volume := vclip b.volume }

/-- Strict date order: the Series invariant (ascending, duplicate-free dates).
-/
def dateLt (a b : Bar) : Prop := a.date < b.date

instance : DecidableRel dateLt := fun a b => (inferInstance : Decidable (a.date < b.date))

/-- The Normalizer-guaranteed precondition on a series: dates strictly
increasing (hence sorted and duplicate-free). -/
def SortedSeries (df : List Bar) : Prop := List.Sorted dateLt df

instance (df : List Bar) : Decidable (SortedSeries df) :=
  (inferInstance : Decidable (List.Pairwise dateLt df))

/-- Example data: `mkBar d hi cl` is a bar with the given date, high and
close (open 100, low 90, volume 1000, instrument "X"). -/
def mkBar (d : ℤ) (hi cl : Option ℚ) : Bar :=
  ⟨d, "X", some 100, hi, some 90, cl, some 1000⟩

/-- A two-bar example series: close 100 on both days, high 100 then 130. -/
def dfExA : List Bar := [mkBar 1 (some 100) (some 100), mkBar 2 (some 130) (some 100)]

/-- A series whose first bar has a missing close. -/
def dfExB : List Bar := [mkBar 1 (some 100) none, mkBar 2 (some 130) (some 100)]

/-- The series `dfExA` with only the first bar's high changed (100 → 500). -/
def dfExC : List Bar := [mkBar 1 (some 500) (some 100), mkBar 2 (some 130) (some 100)]

/-- An unsorted (date-descending) two-bar input. -/
def dfExD : List Bar := [mkBar 2 (some 100) (some 100), mkBar 1 (some 100) (some 100)]

/-- A bar whose high (1) is below its open, low and close (all 5): the
original row minimum is its high. -/
def bC5 : Bar := ⟨1, "X", some 5, some 1, some 5, some 5, some (-3)⟩

/-- A one-bar frame around `bC5`. -/
def dfC5 : List Bar := [bC5]

theorem sortByDate_eq_self {df : List Bar} (hs : SortedSeries df) :
    sortByDate df = df :=
  List.Sorted.insertionSort_eq (hs.imp fun h => le_of_lt h)

theorem labelRow_toBar (df : List Bar) (stb bt : ℚ) (sbd bd idx : ℕ) (b : Bar) :
    (labelRow df stb bt sbd bd idx b).toBar = b := by
  unfold labelRow
  split
  · rfl
  · split <;> rfl

theorem generateLabels_getElem? (df : List Bar) (stb bt : ℚ) (sbd bd i : ℕ) :
    (generateLabels df stb bt sbd bd)[i]? =
      ((sortByDate df)[i]?).map
        (fun b => labelRow (sortByDate df) stb bt sbd bd i b) := by
  simp only [generateLabels]
  rw [List.getElem?_map, List.getElem?_enum]
  cases (sortByDate df)[i]? <;> rfl

/-- The lookahead block computes exactly the future-window maximum named by
the spec: label 1 iff the window holds a valid high whose gain over the close
meets the threshold. -/
theorem windowLabel_eq (df : List Bar) (c t : ℚ) (w idx : ℕ) :
    windowLabel df c t w idx =
      match futureWindowMax df w idx with
      | none => 0
      | some m => if (m - c) / c ≥ t then 1 else 0 := by
  simp only [windowLabel, futureWindowMax]
  by_cases hlt : idx + 1 < min (idx + w + 1) df.length
  · rw [if_pos hlt]
    have hlen : (df.drop (idx + 1)).length = df.length - (idx + 1) :=
      List.length_drop ..
    have hslice : (df.drop (idx + 1)).take (min (idx + w + 1) df.length - (idx + 1))
        = (df.drop (idx + 1)).take w := by
      by_cases hw : w ≤ df.length - (idx + 1)
      · congr 1
        omega
      · rw [List.take_of_length_le (by omega), List.take_of_length_le (by omega)]
    rw [hslice]
    have hpos : 0 < (((df.drop (idx + 1)).take w).map Bar.high).length := by
      rw [List.length_map, List.length_take]
      omega
    rw [if_pos hpos]
  · rw [if_neg hlt]
    have hnone : seriesMax (((df.drop (idx + 1)).take w).map Bar.high) = none := by
      rcases Nat.eq_zero_or_pos w with hw | hw
      · subst hw
        rfl
      · have hdrop : df.drop (idx + 1) = [] := by
          apply List.drop_eq_nil_of_le
          omega
        rw [hdrop, List.take_nil]
        rfl
    rw [hnone]

theorem omax_assoc (a b c : Option ℚ) : omax (omax a b) c = omax a (omax b c) := by
  cases a <;> cases b <;> cases c <;> simp [omax, max_assoc]

theorem seriesMax_append (l1 l2 : List (Option ℚ)) :
    seriesMax (l1 ++ l2) = omax (seriesMax l1) (seriesMax l2) := by
  induction l1 with
  | nil => rfl
  | cons x xs ih => rw [List.cons_append, seriesMax, ih, seriesMax, omax_assoc]

/-- Widening the future window can only raise the window maximum. -/
theorem futureWindowMax_mono (df : List Bar) (i : ℕ) {w1 w2 : ℕ} (hw : w1 ≤ w2)
    {m : ℚ} (hm : futureWindowMax df w1 i = some m) :
    ∃ m2, futureWindowMax df w2 i = some m2 ∧ m ≤ m2 := by
  unfold futureWindowMax at hm ⊢
  have hsplit : (df.drop (i + 1)).take w2
      = (df.drop (i + 1)).take w1 ++ (((df.drop (i + 1)).take w2).drop w1) := by
    conv_lhs => rw [← List.take_append_drop w1 ((df.drop (i + 1)).take w2)]
    rw [List.take_take, min_eq_left hw]
  rw [hsplit, List.map_append, seriesMax_append, hm]
  cases hr : seriesMax ((((df.drop (i + 1)).take w2).drop w1).map Bar.high) with
  | none => exact ⟨m, rfl, le_refl m⟩
  | some r => exact ⟨max m r, rfl, le_max_left m r⟩

/-- Lowering the threshold can only turn a label 0 into a 1 (the lookahead
block is monotone in the threshold). -/
theorem windowLabel_mono_threshold (df : List Bar) (c : ℚ) (w idx : ℕ)
    {t1 t2 : ℚ} (ht : t1 ≤ t2) (h : windowLabel df c t2 w idx = 1) :
    windowLabel df c t1 w idx = 1 := by
  rw [windowLabel_eq] at h ⊢
  cases hf : futureWindowMax df w idx with
  | none => rw [hf] at h; exact absurd h (by norm_num)
  | some m =>
    rw [hf] at h
    dsimp only at h ⊢
    by_cases hcond : (m - c) / c ≥ t2
    · exact if_pos (le_trans ht hcond)
    · rw [if_neg hcond] at h
      exact absurd h (by norm_num)

/-- Widening the window can only turn a label 0 into a 1, for a positive base
price (the lookahead block is monotone in the window length). -/
theorem windowLabel_mono_window (df : List Bar) (c : ℚ) (hc : 0 < c) (t : ℚ)
    (idx : ℕ) {w1 w2 : ℕ} (hw : w1 ≤ w2) (h : windowLabel df c t w1 idx = 1) :
    windowLabel df c t w2 idx = 1 := by
  rw [windowLabel_eq] at h ⊢
  cases hf : futureWindowMax df w1 idx with
  | none => rw [hf] at h; exact absurd h (by norm_num)
  | some m =>
    rw [hf] at h
    dsimp only at h
    by_cases hcond : (m - c) / c ≥ t
    · obtain ⟨m2, hm2, hle⟩ := futureWindowMax_mono df idx hw hf
      rw [hm2]
      dsimp only
      have hdiv : (m - c) / c ≤ (m2 - c) / c := by gcongr
      exact if_pos (le_trans hcond hdiv)
    · rw [if_neg hcond] at h
      exact absurd h (by norm_num)

/-- The lookahead block only ever produces 0 or 1. -/
theorem windowLabel_val (df : List Bar) (c t : ℚ) (w idx : ℕ) :
    windowLabel df c t w idx = 0 ∨ windowLabel df c t w idx = 1 := by
  rw [windowLabel_eq]
  cases futureWindowMax df w idx with
  | none => exact Or.inl rfl
  | some m =>
    dsimp only
    split
    · exact Or.inr rfl
    · exact Or.inl rfl

/-- Every output row of `generate_labels` is `labelRow` of the matching row of
the sorted input. -/
theorem generateLabels_rows (df : List Bar) (stb bt : ℚ) (sbd bd i : ℕ)
    {lb : LabeledBar} (h : (generateLabels df stb bt sbd bd)[i]? = some lb) :
    ∃ b, (sortByDate df)[i]? = some b ∧
      lb = labelRow (sortByDate df) stb bt sbd bd i b := by
  rw [generateLabels_getElem?] at h
  cases hb : (sortByDate df)[i]? with
  | none => rw [hb] at h; exact absurd h (by simp)
  | some b =>
    rw [hb] at h
    exact ⟨b, rfl, (Option.some_injective _ h).symm⟩

theorem generateLabels_length (df : List Bar) (stb bt : ℚ) (sbd bd : ℕ) :
    (generateLabels df stb bt sbd bd).length = df.length := by
  simp only [generateLabels, sortByDate, List.length_map, List.enum_length]
  exact List.length_insertionSort dateLe df

/-- The lookahead block yields 1 exactly when the future window holds a valid
maximum whose relative gain over the close meets the threshold. -/
theorem windowLabel_eq_one_iff (df : List Bar) (c t : ℚ) (w idx : ℕ) :
    windowLabel df c t w idx = 1 ↔
      ∃ m, futureWindowMax df w idx = some m ∧ (m - c) / c ≥ t := by
  rw [windowLabel_eq]
  cases hf : futureWindowMax df w idx with
  | none => simp
  | some m =>
    dsimp only
    constructor
    · intro h1
      split at h1
      · next hcond => exact ⟨m, rfl, hcond⟩
      · exact absurd h1 (by norm_num)
    · rintro ⟨m', hm', hcond⟩
      cases hm'
      exact if_pos hcond

/-- Claim C1: for every series and every index `i` whose close is present and
positive, `strong_label[i] = 1` exactly when the maximum high over the
strictly-future indices `i+1 .. min(i+strongWindow, n-1)` (ignoring missing
highs, at least one valid high present) satisfies
`(maxFutureHigh - close[i]) / close[i] ≥ strongThreshold`, and 0 otherwise;
the same holds for `buy_label` with the buy window and threshold; the current
day's own high is never part of its own window. -/
theorem claim_C1 (df : List Bar) (stb bt : ℚ) (sbd bd : ℕ)
    (hs : SortedSeries df) (i : ℕ) (lb : LabeledBar)
    (hget : (generateLabels df stb bt sbd bd)[i]? = some lb)
    (c : ℚ) (hc : lb.close = some c) (hpos : 0 < c) :
    (lb.buystrong_label = 1 ↔
      ∃ m, futureWindowMax df sbd i = some m ∧ (m - c) / c ≥ stb) ∧
    (lb.buy_label = 1 ↔
      ∃ m, futureWindowMax df bd i = some m ∧ (m - c) / c ≥ bt) := by
  obtain ⟨b, hb, rfl⟩ := generateLabels_rows df stb bt sbd bd i hget
  rw [sortByDate_eq_self hs] at hb hc ⊢
  rw [labelRow_toBar] at hc
  unfold labelRow
  rw [hc]
  dsimp only
  rw [if_neg (not_le.mpr hpos)]
  exact ⟨windowLabel_eq_one_iff df c stb sbd i, windowLabel_eq_one_iff df c bt bd i⟩

/-- Claim C2: a row with a missing or non-positive close gets both labels 0,
regardless of the surrounding bars (the total function `generateLabels`
returns a row for it rather than raising). -/
theorem claim_C2 (df : List Bar) (stb bt : ℚ) (sbd bd i : ℕ) (lb : LabeledBar)
    (hget : (generateLabels df stb bt sbd bd)[i]? = some lb)
    (hbad : lb.close = none ∨ ∃ c, lb.close = some c ∧ c ≤ 0) :
    lb.buystrong_label = 0 ∧ lb.buy_label = 0 := by
  obtain ⟨b, hb, rfl⟩ := generateLabels_rows df stb bt sbd bd i hget
  rw [labelRow_toBar] at hbad
  unfold labelRow
  rcases hbad with hn | ⟨c, hcs, hle⟩
  · rw [hn]
    exact ⟨rfl, rfl⟩
  · rw [hcs]
    dsimp only
    rw [if_pos hle]
    exact ⟨rfl, rfl⟩

/-- Claim C3 (amended): a row whose forward range is empty or holds no valid
high is labeled 0; every input row gets an output row (tail rows are labeled,
never excluded).  A truncated-but-non-empty tail window is still evaluated
over the remaining rows and can be labeled 1. -/
theorem claim_C3_amended (df : List Bar) (stb bt : ℚ) (sbd bd : ℕ)
    (hs : SortedSeries df) (i : ℕ) (lb : LabeledBar)
    (hget : (generateLabels df stb bt sbd bd)[i]? = some lb) :
    (futureWindowMax df sbd i = none → lb.buystrong_label = 0) ∧
    (futureWindowMax df bd i = none → lb.buy_label = 0) ∧
    (generateLabels df stb bt sbd bd).length = df.length := by
  obtain ⟨b, hb, rfl⟩ := generateLabels_rows df stb bt sbd bd i hget
  rw [sortByDate_eq_self hs] at hb ⊢
  refine ⟨?_, ?_, generateLabels_length df stb bt sbd bd⟩
  · intro hnone
    unfold labelRow
    cases hc : b.close
    · rfl
    · dsimp only
      split
      · rfl
      · dsimp only
        rw [windowLabel_eq, hnone]
  · intro hnone
    unfold labelRow
    cases hc : b.close
    · rfl
    · dsimp only
      split
      · rfl
      · dsimp only
        rw [windowLabel_eq, hnone]

theorem dfExA_getElem0 (stb bt : ℚ) (sbd bd : ℕ) :
    (generateLabels dfExA stb bt sbd bd)[0]? =
      some (labelRow dfExA stb bt sbd bd 0 (mkBar 1 (some 100) (some 100))) := by
  rw [generateLabels_getElem?, sortByDate_eq_self (by decide)]
  rfl

theorem dfExA_getElem1 (stb bt : ℚ) (sbd bd : ℕ) :
    (generateLabels dfExA stb bt sbd bd)[1]? =
      some (labelRow dfExA stb bt sbd bd 1 (mkBar 2 (some 130) (some 100))) := by
  rw [generateLabels_getElem?, sortByDate_eq_self (by decide)]
  rfl

/-- Witness for C1 on `dfExA` at index 0: close 100, future high 130, gain
0.3 ≥ 0.25 and ≥ 0.18. -/
theorem claim_C1_witness :
    SortedSeries dfExA ∧ (0:ℚ) < 100 ∧
    (((labelRow dfExA 0.25 0.18 10 15 0 (mkBar 1 (some 100) (some 100)))).buystrong_label = 1 ↔
      ∃ m, futureWindowMax dfExA 10 0 = some m ∧ (m - 100) / 100 ≥ (0.25:ℚ)) ∧
    (((labelRow dfExA 0.25 0.18 10 15 0 (mkBar 1 (some 100) (some 100)))).buy_label = 1 ↔
      ∃ m, futureWindowMax dfExA 15 0 = some m ∧ (m - 100) / 100 ≥ (0.18:ℚ)) := by
  refine ⟨by decide, by norm_num, ?_⟩
  exact claim_C1 dfExA 0.25 0.18 10 15 (by decide) 0 _ (dfExA_getElem0 0.25 0.18 10 15) 100
    (by rw [labelRow_toBar]; rfl) (by norm_num)

theorem dfExB_getElem0 (stb bt : ℚ) (sbd bd : ℕ) :
    (generateLabels dfExB stb bt sbd bd)[0]? =
      some (labelRow dfExB stb bt sbd bd 0 (mkBar 1 (some 100) none)) := by
  rw [generateLabels_getElem?, sortByDate_eq_self (by decide)]
  rfl

/-- Witness for C2 on `dfExB` at index 0: the close is missing, both labels
are 0 although the next bar's high would qualify. -/
theorem claim_C2_witness :
    (labelRow dfExB 0.25 0.18 10 15 0 (mkBar 1 (some 100) none)).buystrong_label = 0 ∧
    (labelRow dfExB 0.25 0.18 10 15 0 (mkBar 1 (some 100) none)).buy_label = 0 :=
  claim_C2 dfExB 0.25 0.18 10 15 0 _ (dfExB_getElem0 0.25 0.18 10 15)
    (Or.inl (by rw [labelRow_toBar]; rfl))

/-- Witness for C3 on `dfExA` at the last index: the forward range is empty,
both labels are 0, and the output has one row per input row. -/
theorem claim_C3_witness :
    futureWindowMax dfExA 10 1 = none ∧ futureWindowMax dfExA 15 1 = none ∧
    (labelRow dfExA 0.25 0.18 10 15 1 (mkBar 2 (some 130) (some 100))).buystrong_label = 0 ∧
    (labelRow dfExA 0.25 0.18 10 15 1 (mkBar 2 (some 130) (some 100))).buy_label = 0 ∧
    (generateLabels dfExA 0.25 0.18 10 15).length = dfExA.length := by
  have h := claim_C3_amended dfExA 0.25 0.18 10 15 (by decide) 1 _
    (dfExA_getElem1 0.25 0.18 10 15)
  exact ⟨rfl, rfl, h.1 rfl, h.2.1 rfl, h.2.2⟩

/-- Counterexample to C3 as stated: on `dfExA` index 0 the forward range is
truncated (`n - 1 - i = 1 < 10`) yet the strong label is 1, because the one
remaining future high (130 over close 100) meets the 25% threshold. -/
theorem claim_C3_counterexample :
    dfExA.length - 1 - 0 < 10 ∧
    ((generateLabels dfExA 0.25 0.18 10 15)[0]?).map LabeledBar.buystrong_label
      = some 1 := by
  refine ⟨by norm_num [dfExA], ?_⟩
  rw [dfExA_getElem0 0.25 0.18 10 15]
  norm_num [labelRow, mkBar, windowLabel, dfExA, seriesMax, omax]

/-- Claim C6: lowering either threshold (window fixed) can only turn a
0-label into a 1-label, never the reverse. -/
theorem claim_C6 (df : List Bar) (stb1 stb2 bt1 bt2 : ℚ) (sbd bd i : ℕ)
    (hst : stb1 ≤ stb2) (hbt : bt1 ≤ bt2) (lb1 lb2 : LabeledBar)
    (h1 : (generateLabels df stb1 bt1 sbd bd)[i]? = some lb1)
    (h2 : (generateLabels df stb2 bt2 sbd bd)[i]? = some lb2) :
    (lb2.buystrong_label = 1 → lb1.buystrong_label = 1) ∧
    (lb2.buy_label = 1 → lb1.buy_label = 1) := by
  obtain ⟨b, hb, rfl⟩ := generateLabels_rows df stb1 bt1 sbd bd i h1
  obtain ⟨b2, hb2, rfl⟩ := generateLabels_rows df stb2 bt2 sbd bd i h2
  rw [hb] at hb2
  injection hb2 with hbb
  subst hbb
  unfold labelRow
  cases hc : b.close with
  | none => exact ⟨id, id⟩
  | some c =>
    dsimp only
    split
    · exact ⟨id, id⟩
    · dsimp only
      exact ⟨windowLabel_mono_threshold (sortByDate df) c sbd i hst,
        windowLabel_mono_threshold (sortByDate df) c bd i hbt⟩

/-- Witness for C6 on `dfExA` at index 0, thresholds 0.18 ≤ 0.25. -/
theorem claim_C6_witness :
    (0.18:ℚ) ≤ 0.25 ∧
    ((labelRow dfExA 0.25 0.25 10 15 0 (mkBar 1 (some 100) (some 100))).buystrong_label = 1 →
      (labelRow dfExA 0.18 0.18 10 15 0 (mkBar 1 (some 100) (some 100))).buystrong_label = 1) ∧
    ((labelRow dfExA 0.25 0.25 10 15 0 (mkBar 1 (some 100) (some 100))).buy_label = 1 →
      (labelRow dfExA 0.18 0.18 10 15 0 (mkBar 1 (some 100) (some 100))).buy_label = 1) :=
  ⟨by norm_num,
    claim_C6 dfExA 0.18 0.25 0.18 0.25 10 15 0 (by norm_num) (by norm_num) _ _
      (dfExA_getElem0 0.18 0.18 10 15) (dfExA_getElem0 0.25 0.25 10 15)⟩

/-- Claim C7: widening either window (threshold fixed) can only turn a
0-label into a 1-label, never the reverse. -/
theorem claim_C7 (df : List Bar) (stb bt : ℚ) (sbd1 sbd2 bd1 bd2 i : ℕ)
    (hp1 : 0 < sbd1) (hp2 : 0 < bd1) (hw1 : sbd1 ≤ sbd2) (hw2 : bd1 ≤ bd2)
    (lb1 lb2 : LabeledBar)
    (h1 : (generateLabels df stb bt sbd1 bd1)[i]? = some lb1)
    (h2 : (generateLabels df stb bt sbd2 bd2)[i]? = some lb2) :
    (lb1.buystrong_label = 1 → lb2.buystrong_label = 1) ∧
    (lb1.buy_label = 1 → lb2.buy_label = 1) := by
  obtain ⟨b, hb, rfl⟩ := generateLabels_rows df stb bt sbd1 bd1 i h1
  obtain ⟨b2, hb2, rfl⟩ := generateLabels_rows df stb bt sbd2 bd2 i h2
  rw [hb] at hb2
  injection hb2 with hbb
  subst hbb
  unfold labelRow
  cases hc : b.close with
  | none => exact ⟨id, id⟩
  | some c =>
    dsimp only
    split
    · exact ⟨id, id⟩
    · next hcle =>
      dsimp only
      exact ⟨windowLabel_mono_window (sortByDate df) c (not_le.mp hcle) stb i hw1,
        windowLabel_mono_window (sortByDate df) c (not_le.mp hcle) bt i hw2⟩

/-- Witness for C7 on `dfExA` at index 0, windows 1 ≤ 10 and 1 ≤ 15. -/
theorem claim_C7_witness :
    (0 < 1 ∧ (1:ℕ) ≤ 10 ∧ (1:ℕ) ≤ 15) ∧
    ((labelRow dfExA 0.25 0.18 1 1 0 (mkBar 1 (some 100) (some 100))).buystrong_label = 1 →
      (labelRow dfExA 0.25 0.18 10 15 0 (mkBar 1 (some 100) (some 100))).buystrong_label = 1) ∧
    ((labelRow dfExA 0.25 0.18 1 1 0 (mkBar 1 (some 100) (some 100))).buy_label = 1 →
      (labelRow dfExA 0.25 0.18 10 15 0 (mkBar 1 (some 100) (some 100))).buy_label = 1) :=
  ⟨⟨by decide, by decide, by decide⟩,
    claim_C7 dfExA 0.25 0.18 1 10 1 15 0 (by decide) (by decide) (by decide) (by decide) _ _
      (dfExA_getElem0 0.25 0.18 1 1) (dfExA_getElem0 0.25 0.18 10 15)⟩

/-- Claim C8: two series (both satisfying the Series invariant) that differ
only in `high[i]` get identical labels at `i` — a day's labels never depend on
that day's own high. -/
theorem claim_C8 (df1 df2 : List Bar) (stb bt : ℚ) (sbd bd i : ℕ)
    (hs1 : SortedSeries df1) (hs2 : SortedSeries df2)
    (hlen : df1.length = df2.length)
    (hoff : ∀ j, j ≠ i → df1[j]? = df2[j]?)
    (b1 b2 : Bar) (hb1 : df1[i]? = some b1) (hb2 : df2[i]? = some b2)
    (hdate : b1.date = b2.date) (hcode : b1.code = b2.code)
    (hopen : b1.«open» = b2.«open») (hlow : b1.low = b2.low)
    (hclose : b1.close = b2.close) (hvol : b1.volume = b2.volume) :
    ((generateLabels df1 stb bt sbd bd)[i]?).map
        (fun r => (r.buystrong_label, r.buy_label)) =
      ((generateLabels df2 stb bt sbd bd)[i]?).map
        (fun r => (r.buystrong_label, r.buy_label)) := by
  rw [generateLabels_getElem?, generateLabels_getElem?,
    sortByDate_eq_self hs1, sortByDate_eq_self hs2, hb1, hb2]
  simp only [Option.map_some']
  have hdrop : df1.drop (i + 1) = df2.drop (i + 1) := by
    apply List.ext_getElem?
    intro n
    rw [List.getElem?_drop, List.getElem?_drop]
    exact hoff (i + 1 + n) (by omega)
  have hwl : ∀ (c t : ℚ) (w : ℕ), windowLabel df1 c t w i = windowLabel df2 c t w i := by
    intro c t w
    simp only [windowLabel, hlen, hdrop]
  unfold labelRow
  rw [hclose]
  cases hc : b2.close with
  | none => rfl
  | some c =>
    dsimp only
    split
    · rfl
    · dsimp only
      rw [hwl c stb sbd, hwl c bt bd]

/-- Witness for C8: `dfExA` and `dfExC` differ only in `high[0]` and their
labels at index 0 agree. -/
theorem claim_C8_witness :
    ((generateLabels dfExA 0.25 0.18 10 15)[0]?).map
        (fun r => (r.buystrong_label, r.buy_label)) =
      ((generateLabels dfExC 0.25 0.18 10 15)[0]?).map
        (fun r => (r.buystrong_label, r.buy_label)) :=
  claim_C8 dfExA dfExC 0.25 0.18 10 15 0 (by decide) (by decide) rfl
    (fun j hj => by
      match j with
      | 0 => exact absurd rfl hj
      | 1 => rfl
      | n + 2 => rfl)
    (mkBar 1 (some 100) (some 100)) (mkBar 1 (some 500) (some 100))
    rfl rfl rfl rfl rfl rfl rfl rfl

theorem generateLabels_map_toBar (df : List Bar) (stb bt : ℚ) (sbd bd : ℕ) :
    (generateLabels df stb bt sbd bd).map LabeledBar.toBar = sortByDate df := by
  simp only [generateLabels, List.map_map]
  have h : (LabeledBar.toBar ∘ fun p : ℕ × Bar =>
      labelRow (sortByDate df) stb bt sbd bd p.1 p.2) = Prod.snd := by
    funext p
    exact labelRow_toBar (sortByDate df) stb bt sbd bd p.1 p.2
  rw [h, List.enum_map_snd]

/-- Counterexample to C4 as stated: on the unsorted input `dfExD`,
`generate_labels` raises no error — it returns a full output, in internally
re-sorted date order. -/
theorem claim_C4_counterexample :
    dfExD.map Bar.date = [2, 1] ∧
    (generateLabels dfExD 0.25 0.18 10 15).map (fun r => r.toBar.date) = [1, 2] := by
  refine ⟨rfl, ?_⟩
  calc (generateLabels dfExD 0.25 0.18 10 15).map (fun r => r.toBar.date)
      = ((generateLabels dfExD 0.25 0.18 10 15).map LabeledBar.toBar).map Bar.date := by
        rw [List.map_map]; rfl
    _ = (sortByDate dfExD).map Bar.date := by rw [generateLabels_map_toBar]
    _ = [1, 2] := rfl

/-- Claim C4 (amended): `generate_labels` does not fail fast on unsorted,
duplicate-date or empty input; it internally re-sorts by date, keeps every
row (no de-duplication, one output row per input row) and produces output in
ascending date order.  Both conclusions are independent of how the sort
orders rows with tied dates. -/
theorem claim_C4_amended (df : List Bar) (stb bt : ℚ) (sbd bd : ℕ) :
    (generateLabels df stb bt sbd bd).length = df.length ∧
    ((generateLabels df stb bt sbd bd).map (fun r => r.toBar.date)).Sorted (· ≤ ·) := by
  have hsorted : List.Sorted dateLe (sortByDate df) := List.sorted_insertionSort dateLe df
  refine ⟨generateLabels_length df stb bt sbd bd, ?_⟩
  have h1 : (generateLabels df stb bt sbd bd).map (fun r => r.toBar.date)
      = (sortByDate df).map Bar.date := by
    rw [show (fun r : LabeledBar => r.toBar.date) = Bar.date ∘ LabeledBar.toBar from rfl,
      ← List.map_map, generateLabels_map_toBar]
  rw [h1]
  exact List.Pairwise.map Bar.date (fun a b h => h) hsorted

/-- Claim C10: the plain and "vectorized" implementations agree on every
input and configuration. -/
theorem claim_C10 (df : List Bar) (stb bt : ℚ) (sbd bd : ℕ) :
    generateLabelsVectorized df stb bt sbd bd = generateLabels df stb bt sbd bd := by
  simp only [generateLabelsVectorized, generateLabels]
  apply List.map_congr_left
  intro p hp
  cases hc : p.2.close with
  | none => simp only [labelRowVec, labelRow, hc]
  | some c => simp only [labelRowVec, labelRow, hc, windowLabel]

theorem setStrongAt_getElem? (l : List LabeledBar) (i j : ℕ) :
    (setStrongAt l i)[j]? =
      if j = i then (l[j]?).map (fun r => { r with buystrong_label := 1 })
      else l[j]? := by
  induction l generalizing i j with
  | nil => simp [setStrongAt]
  | cons r rest ih =>
    cases i with
    | zero =>
      cases j with
      | zero => simp [setStrongAt]
      | succ n => simp [setStrongAt]
    | succ m =>
      cases j with
      | zero => simp [setStrongAt]
      | succ n => simpa [setStrongAt] using ih m n

theorem setBuyAt_getElem? (l : List LabeledBar) (i j : ℕ) :
    (setBuyAt l i)[j]? =
      if j = i then (l[j]?).map (fun r => { r with buy_label := 1 })
      else l[j]? := by
  induction l generalizing i j with
  | nil => simp [setBuyAt]
  | cons r rest ih =>
    cases i with
    | zero =>
      cases j with
      | zero => simp [setBuyAt]
      | succ n => simp [setBuyAt]
    | succ m =>
      cases j with
      | zero => simp [setBuyAt]
      | succ n => simpa [setBuyAt] using ih m n

theorem setStrongAt_map_toBar (l : List LabeledBar) (i : ℕ) :
    (setStrongAt l i).map LabeledBar.toBar = l.map LabeledBar.toBar := by
  apply List.ext_getElem?
  intro n
  rw [List.getElem?_map, List.getElem?_map, setStrongAt_getElem?]
  split
  · cases l[n]? <;> rfl
  · rfl

theorem setBuyAt_map_toBar (l : List LabeledBar) (i : ℕ) :
    (setBuyAt l i).map LabeledBar.toBar = l.map LabeledBar.toBar := by
  apply List.ext_getElem?
  intro n
  rw [List.getElem?_map, List.getElem?_map, setBuyAt_getElem?]
  split
  · cases l[n]? <;> rfl
  · rfl

/-- One imperative loop iteration writes exactly the labels `labelRow`
computes for its row and leaves every other row untouched, provided the
OHLCV columns of the working frame still read back the sorted input and row
`k` is still unlabeled. -/
theorem labelIteration_getElem? (stb bt : ℚ) (sbd bd : ℕ) (s : List Bar)
    (acc : List LabeledBar) (k : ℕ) (b : Bar)
    (hbars : acc.map LabeledBar.toBar = s)
    (hk : s[k]? = some b)
    (hinit : acc[k]? = some { toBar := b, buystrong_label := 0, buy_label := 0 })
    (j : ℕ) :
    (labelIteration stb bt sbd bd acc k)[j]? =
      if j = k then some (labelRow s stb bt sbd bd k b) else acc[j]? := by
  simp only [labelIteration]
  rw [hbars, hk]
  dsimp only
  cases hc : b.close with
  | none =>
    by_cases hj : j = k
    · subst hj
      rw [if_pos rfl, hinit]
      simp [labelRow, hc]
    · rw [if_neg hj]
  | some c =>
    dsimp only
    by_cases hcle : c ≤ 0
    · rw [if_pos hcle]
      by_cases hj : j = k
      · subst hj
        rw [if_pos rfl, hinit]
        simp [labelRow, hc, hcle]
      · rw [if_neg hj]
    · rw [if_neg hcle]
      have hlr : labelRow s stb bt sbd bd k b =
          (⟨b, windowLabel s c stb sbd k, windowLabel s c bt bd k⟩ : LabeledBar) := by
        simp [labelRow, hc, hcle]
      have hacc1 : ∀ j',
          (if windowLabel s c stb sbd k = 1 then setStrongAt acc k else acc)[j']? =
            if j' = k then
              some (⟨b, windowLabel s c stb sbd k, 0⟩ : LabeledBar)
            else acc[j']? := by
        intro j'
        rcases windowLabel_val s c stb sbd k with h0 | h1
        · rw [h0, if_neg (by norm_num)]
          by_cases hj' : j' = k
          · subst hj'
            rw [if_pos rfl, hinit]
          · rw [if_neg hj']
        · rw [h1, if_pos rfl, setStrongAt_getElem?]
          by_cases hj' : j' = k
          · subst hj'
            rw [if_pos rfl, if_pos rfl, hinit]
            rfl
          · rw [if_neg hj', if_neg hj']
      have hbars1 :
          (if windowLabel s c stb sbd k = 1 then setStrongAt acc k else acc).map
            LabeledBar.toBar = s := by
        split
        · rw [setStrongAt_map_toBar, hbars]
        · exact hbars
      rw [hbars1, hlr]
      rcases windowLabel_val s c bt bd k with h0 | h1
      · rw [h0, if_neg (by norm_num), hacc1 j]
      · rw [h1, if_pos rfl, setBuyAt_getElem?]
        by_cases hj : j = k
        · subst hj
          rw [if_pos rfl, if_pos rfl, hacc1 j, if_pos rfl]
          rfl
        · rw [if_neg hj, if_neg hj, hacc1 j, if_neg hj]

/-- After the first `k` iterations of the imperative loop, rows below `k`
carry their final labels and rows from `k` on are still the freshly
initialized 0/0 rows. -/
theorem labelLoop_getElem? (stb bt : ℚ) (sbd bd : ℕ) (s : List Bar) (k : ℕ)
    (hk : k ≤ s.length) :
    ∀ j, ((List.range k).foldl (labelIteration stb bt sbd bd)
        (s.map fun b => { toBar := b, buystrong_label := 0, buy_label := 0 }))[j]? =
      if j < k then (s[j]?).map (fun b => labelRow s stb bt sbd bd j b)
      else (s[j]?).map
        (fun b => { toBar := b, buystrong_label := 0, buy_label := 0 }) := by
  induction k with
  | zero =>
    intro j
    rw [if_neg (Nat.not_lt_zero j)]
    simp only [List.range_zero, List.foldl_nil]
    exact List.getElem?_map ..
  | succ k ih =>
    have hk' : k ≤ s.length := Nat.le_of_succ_le hk
    have hkl : k < s.length := hk
    have hmid := ih hk'
    intro j
    rw [List.range_succ, List.foldl_append, List.foldl_cons, List.foldl_nil]
    have hbars : ((List.range k).foldl (labelIteration stb bt sbd bd)
        (s.map fun b => { toBar := b, buystrong_label := 0, buy_label := 0 })).map
          LabeledBar.toBar = s := by
      apply List.ext_getElem?
      intro n
      rw [List.getElem?_map, hmid n]
      split
      · cases hs' : s[n]? with
        | none => rfl
        | some b => simp [labelRow_toBar]
      · cases hs' : s[n]? with
        | none => rfl
        | some b => rfl
    have hb : s[k]? = some s[k] := List.getElem?_eq_getElem hkl
    have hinit : ((List.range k).foldl (labelIteration stb bt sbd bd)
        (s.map fun b => { toBar := b, buystrong_label := 0, buy_label := 0 }))[k]? =
          some { toBar := s[k], buystrong_label := 0, buy_label := 0 } := by
      rw [hmid k, if_neg (lt_irrefl k), hb]
      rfl
    rw [labelIteration_getElem? stb bt sbd bd s _ k s[k] hbars hb hinit j]
    by_cases hj : j = k
    · subst hj
      rw [if_pos rfl, if_pos (Nat.lt_succ_self j), hb]
      rfl
    · rw [if_neg hj, hmid j]
      by_cases hjk : j < k
      · rw [if_pos hjk, if_pos (by omega)]
      · rw [if_neg hjk, if_neg (by omega)]

/-- Claim C9: `generate_labels` is pure over its input.  `df.copy()` makes
the working frame a fresh object, every in-place label write hits the copy,
so after the call the caller's frame is exactly the input — and the
imperative loop produces exactly the row-wise map `generateLabels`. -/
theorem claim_C9 (df : List Bar) (stb bt : ℚ) (sbd bd : ℕ) :
    generateLabelsImp df stb bt sbd bd = (df, generateLabels df stb bt sbd bd) := by
  simp only [generateLabelsImp, List.map_id']
  refine Prod.ext rfl ?_
  dsimp only
  apply List.ext_getElem?
  intro j
  rw [generateLabels_getElem?, List.length_map,
    labelLoop_getElem? stb bt sbd bd (sortByDate df) (sortByDate df).length
      (le_refl _) j]
  by_cases hj : j < (sortByDate df).length
  · rw [if_pos hj]
  · rw [if_neg hj, List.getElem?_eq_none (by omega)]
    rfl

/-- Claim C5 (amended): for every bar coming out of the fill stage, the
Normalizer's output high is the row max of `{high, open, close, low}`, and
the output low is the row min of `{high, open, close, low}` taken *after*
the high column has been replaced by that max — which equals
`min {open, close, low}` and need not be the min of the four original
values. -/
theorem claim_C5_amended (df : List Bar) (fm : FillMethod) (dd sb : Bool)
    (i : ℕ) (b : Bar) (hb : (normalizeStage df fm dd sb)[i]? = some b) :
    ∃ b', (preprocessData df fm dd sb)[i]? = some b' ∧
      b'.high = seriesMax [b.high, b.«open», b.close, b.low] ∧
      b'.low = seriesMin [seriesMax [b.high, b.«open», b.close, b.low],
        b.«open», b.close, b.low] := by
  refine ⟨{ clampBar b with volume := vclip (clampBar b).volume }, ?_, ?_, ?_⟩
  · simp only [preprocessData]
    rw [List.getElem?_map, List.getElem?_map, hb]
    rfl
  · rfl
  · rfl

/-- Witness for C5 (amended) on the one-bar frame `dfC5`. -/
theorem claim_C5_witness :
    ∃ b', (preprocessData dfC5 .both true true)[0]? = some b' ∧
      b'.high = seriesMax [bC5.high, bC5.«open», bC5.close, bC5.low] ∧
      b'.low = seriesMin [seriesMax [bC5.high, bC5.«open», bC5.close, bC5.low],
        bC5.«open», bC5.close, bC5.low] :=
  claim_C5_amended dfC5 .both true true 0 bC5 (by rfl)

/-- Counterexample to C5 as stated: on `dfC5` the output low is 5, while the
minimum of the bar's original `{open, high, low, close}` is its high, 1. -/
theorem claim_C5_counterexample :
    (preprocessData dfC5 .both true true).map Bar.low = [some 5] ∧
    seriesMin [bC5.«open», bC5.high, bC5.low, bC5.close] = some 1 := by
  constructor
  · have hn : normalizeStage dfC5 .both true true = [bC5] := rfl
    simp only [preprocessData, hn, List.map_map, List.map_cons, List.map_nil,
      Function.comp]
    norm_num [clampBar, vclip, bC5, seriesMax, seriesMin, omax, omin,
      min_def, max_def]
  · norm_num [seriesMin, omin, bC5, min_def]
